import Mathlib

/-!
# Verification of the coastpad C bridging layer

Shallow embedding of the C sources (`multitouch.c`, `device.c`, `eventtap.c`)
and, where the deciding code lives on the Go side of the cgo boundary (the
Touch State Tracker and the Touch Frame Decoder), a model built from the
specification's words.

Handles (`io_object_t`, `io_iterator_t`, dictionary references, ports) are
modelled as `Nat`, with `0` standing for `IO_OBJECT_NULL` / a NULL pointer.
An iterator's pending contents are modelled as the list of objects that
successive `IOIteratorNext` calls would yield before returning
`IO_OBJECT_NULL`. Side effects on the IOKit layer are recorded as an explicit
trace of actions.
-/

set_option autoImplicit false

namespace Coastpad

/-- One observable resource-management action performed by the C code:
a `CFRelease` of a matching dictionary, an `IOObjectRelease` of an object or
iterator handle, consumption of a matching dictionary by
`IOServiceAddMatchingNotification` (ownership transfer, on success or
failure), or an `IONotificationPortDestroy`. -/
inductive Act where
  | cfRelease (dict : Nat)
  | ioRelease (obj : Nat)
  | consume (dict : Nat)
  | portDestroy (port : Nat)
  deriving DecidableEq, Repr

/-- `drain_iterator` from `multitouch.c` (lines 15-20): repeatedly calls
`IOIteratorNext` and releases each yielded object until `IO_OBJECT_NULL`
is returned. The iterator is modelled by the list of values
`IOIteratorNext` will yield; the result is the list of handles passed to
`IOObjectRelease`, in order. -/
def drain_iterator : List Nat → List Nat
  | [] => []
  | obj :: rest => if obj = 0 then [] else obj :: drain_iterator rest

/-- The environment a call to `setup_iokit_notifications` runs in: the
results of the two `IOServiceMatching` calls (0 = NULL), the kern results
of the two `IOServiceAddMatchingNotification` calls (0 = `KERN_SUCCESS`),
the iterator handle each registration stores through its out-parameter on
success, and the objects pending on each iterator at registration time. -/
structure SetupEnv where
  mAdd : Nat
  mRemove : Nat
  krAdd : Nat
  addIterH : Nat
  addObjs : List Nat
  krRemove : Nat
  removeIterH : Nat
  removeObjs : List Nat
  deriving DecidableEq, Repr

/-- The observable outcome of `setup_iokit_notifications`: the returned
`kern_return_t` (`KERN_FAILURE` is 5), the final values of the `*addIter`
and `*removeIter` out-parameters (callers initialise them to 0; a failed
registration leaves them untouched), and the action trace. -/
structure SetupOut where
  ret : Nat
  addIter : Nat
  removeIter : Nat
  trace : List Act
  deriving DecidableEq, Repr

/-- The trace of `IOObjectRelease` actions performed by draining an
iterator holding `objs`. -/
def drainTrace (objs : List Nat) : List Act :=
  (drain_iterator objs).map Act.ioRelease

/-- `setup_iokit_notifications` from `multitouch.c` (lines 30-58), line by
line: create both matching dictionaries (releasing any non-NULL one and
returning `KERN_FAILURE` if either is NULL); register the add-side
notification (the dictionary is consumed by the call either way) and
return its error on failure; drain the add iterator; register the
remove-side notification, and on failure release the add iterator, zero
its handle and return the error; drain the remove iterator; return
`KERN_SUCCESS`. -/
def setup_iokit_notifications (e : SetupEnv) : SetupOut :=
  if e.mAdd = 0 ∨ e.mRemove = 0 then
    { ret := 5, addIter := 0, removeIter := 0
      trace := (if e.mAdd ≠ 0 then [Act.cfRelease e.mAdd] else []) ++
               (if e.mRemove ≠ 0 then [Act.cfRelease e.mRemove] else []) }
  else if e.krAdd ≠ 0 then
    { ret := e.krAdd, addIter := 0, removeIter := 0
      trace := [Act.consume e.mAdd] }
  else if e.krRemove ≠ 0 then
    { ret := e.krRemove, addIter := 0, removeIter := 0
      trace := Act.consume e.mAdd :: drainTrace e.addObjs ++
               [Act.consume e.mRemove, Act.ioRelease e.addIterH] }
  else
    { ret := 0, addIter := e.addIterH, removeIter := e.removeIterH
      trace := Act.consume e.mAdd :: drainTrace e.addObjs ++
               Act.consume e.mRemove :: drainTrace e.removeObjs }

/-- `cleanup_iokit_notifications` from `multitouch.c` (lines 61-66):
release each non-zero iterator handle, then destroy the port if non-NULL. -/
def cleanup_iokit_notifications (port addIter removeIter : Nat) : List Act :=
  (if addIter ≠ 0 then [Act.ioRelease addIter] else []) ++
  (if removeIter ≠ 0 then [Act.ioRelease removeIter] else []) ++
  (if port ≠ 0 then [Act.portDestroy port] else [])

/-- The register-then-teardown round trip: the actions of
`setup_iokit_notifications` followed by those of
`cleanup_iokit_notifications` applied to the handles it produced. -/
def roundTrip (port : Nat) (e : SetupEnv) : List Act :=
  let s := setup_iokit_notifications e
  s.trace ++ cleanup_iokit_notifications port s.addIter s.removeIter

/-- The one logical signal the multitouch notification bridge can forward
to the Go side: `goIOKitDeviceChanged()` takes no arguments, so the signal
carries no payload at all. -/
inductive GoSignal where
  | devicesChanged
  deriving DecidableEq, Repr

/-- `bridge_iokit_callback` from `multitouch.c` (lines 23-26): drain the
delivered iterator, then call `goIOKitDeviceChanged()`. The result is the
pair of the release trace and the list of signals forwarded to Go. -/
def bridge_iokit_callback (_refcon : Nat) (iter : List Nat) :
    List Act × List GoSignal :=
  (drainTrace iter, [GoSignal.devicesChanged])

/-- `bridge_touch_callback` from `multitouch.c` (lines 7-10): forward all
five arguments to `goTouchCallback` and return 0. The Go handler is an
arbitrary function producing an arbitrary outcome `α`; the bridge returns
the pair of that outcome and the C return value. -/
def bridge_touch_callback {Dev Fing α : Type}
    (goTouchCallback : Dev → Option (List Fing) → Int → Int → Int → α)
    (device : Dev) (data : Option (List Fing)) (dataNum : Int)
    (timestamp : Int) (frame : Int) : α × Int :=
  (goTouchCallback device data dataNum timestamp frame, 0)

/-- `bridge_event_tap_callback` from `eventtap.c` (lines 6-9): return
exactly what `goEventTapCallback` returns. A `CGEventRef` is modelled as
`Option Ev` (`none` = NULL = suppress). -/
def bridge_event_tap_callback {Proxy Ev Info : Type}
    (goEventTapCallback : Proxy → Nat → Option Ev → Info → Option Ev)
    (proxy : Proxy) (type : Nat) (event : Option Ev) (userInfo : Info) :
    Option Ev :=
  goEventTapCallback proxy type event userInfo

/-! ## Touch State Tracker and Touch Frame Decoder

The tracker and decoder live on the Go side of the cgo boundary; only
their C-side declarations and bridges are in the repository's C sources.
They are therefore modelled from the specification. -/

/-- The 8-valued touch state from `multitouch.h` (lines 9-11):
`0:NotTracking → 1:StartInRange → 2:HoverInRange → 3:MakeTouch →
4:Touching → 5:BreakTouch → 6:LingerInRange → 7:OutOfRange`. -/
inductive TouchState where
  | notTracking
  | startInRange
  | hoverInRange
  | makeTouch
  | touching
  | breakTouch
  | lingerInRange
  | outOfRange
  deriving DecidableEq, Repr

/-- Decode the raw `int32_t state` field of a `Finger` record into the
8-valued enum; values outside 0-7 fall back to `notTracking` (the spec
rejects unexpected values rather than trusting them). -/
def toTouchState (s : Int) : TouchState :=
  if s = 1 then .startInRange
  else if s = 2 then .hoverInRange
  else if s = 3 then .makeTouch
  else if s = 4 then .touching
  else if s = 5 then .breakTouch
  else if s = 6 then .lingerInRange
  else if s = 7 then .outOfRange
  else .notTracking

/-- A raw per-finger record as handed to the callback (`Finger` in
`multitouch.h`, lines 28-45), restricted to the fields the decoder and
tracker depend on; the geometric payload is abstracted to one tuple of
integers standing for the copied numeric fields. -/
structure RawFinger where
  fingerID : Int
  state : Int
  geom : Int × Int
  deriving DecidableEq, Repr

/-- A validated, typed contact snapshot (spec §3 "Contact", §4.1): fields
copied out of the transient buffer, state decoded into the enum. -/
structure Contact where
  fingerID : Int
  state : TouchState
  geom : Int × Int
  deriving DecidableEq, Repr

/-- The decoder's failure signal (spec §4.1 `DecodeError`). -/
inductive DecodeError where
  | decodeError
  deriving DecidableEq, Repr

/-- Modelled from the spec: the Touch Frame Decoder (§4.1), whose Go
implementation is not among the C sources. Given the callback's buffer
pointer (`none` = absent) and `dataNum`, it fails with `DecodeError` if
`dataNum` is negative or the buffer pointer is absent, and otherwise
produces the `dataNum` validated Contact values copied from the buffer. -/
def decodeFrame (buf : Option (List RawFinger)) (dataNum : Int) :
    Except DecodeError (List Contact) :=
  match buf with
  | none => .error .decodeError
  | some records =>
    if dataNum < 0 then .error .decodeError
    else .ok ((records.take dataNum.toNat).map fun r =>
      { fingerID := r.fingerID, state := toTouchState r.state, geom := r.geom })

/-- The per-finger data the tracker keeps between frames: the last seen
state and geometry (spec §4.2, "compare new geometry to last emitted
snapshot"). -/
structure FingerTrack where
  lastState : TouchState
  lastGeom : Int × Int
  deriving DecidableEq, Repr

/-- The touch lifecycle events the tracker emits (spec §4.2). -/
inductive TouchEvent where
  | touchBegin (fid : Int)
  | touchUpdate (fid : Int)
  | touchEnd (fid : Int)
  deriving DecidableEq, Repr

/-- Look up a fingerID in the tracker's association list of live state
machines. -/
def lookupFinger (fid : Int) : List (Int × FingerTrack) → Option FingerTrack
  | [] => none
  | (k, v) :: rest => if k = fid then some v else lookupFinger fid rest

/-- Remove a fingerID's state machine (spec §4.2: "After `TouchEnd`, drop
the state machine"). -/
def removeFinger (fid : Int) : List (Int × FingerTrack) →
    List (Int × FingerTrack)
  | [] => []
  | (k, v) :: rest =>
    if k = fid then removeFinger fid rest else (k, v) :: removeFinger fid rest

/-- Replace the stored snapshot for a live fingerID. -/
def updateFinger (fid : Int) (ft : FingerTrack) : List (Int × FingerTrack) →
    List (Int × FingerTrack)
  | [] => []
  | (k, v) :: rest =>
    if k = fid then (k, ft) :: updateFinger fid ft rest
    else (k, v) :: updateFinger fid ft rest

/-- The states whose first appearance from `NotTracking` triggers
`TouchBegin` (spec §4.2: `StartInRange`/`HoverInRange`/`MakeTouch`). -/
def isBeginState (s : TouchState) : Bool :=
  s = .startInRange ∨ s = .hoverInRange ∨ s = .makeTouch

/-- The states in which a changed frame yields `TouchUpdate` (spec §4.2:
`MakeTouch`/`Touching`/`BreakTouch`/`LingerInRange`). -/
def isUpdateState (s : TouchState) : Bool :=
  s = .makeTouch ∨ s = .touching ∨ s = .breakTouch ∨ s = .lingerInRange

/-- Modelled from the spec: processing of one Contact by the Touch State
Tracker (§4.2), whose Go implementation is not among the C sources. An
untracked fingerID entering a begin state emits `TouchBegin` and is
tracked; other states of an untracked fingerID are ignored (unexpected
jumps are rejected, §9). A tracked fingerID reporting `OutOfRange` emits
`TouchEnd` and its machine is dropped; otherwise its snapshot is updated
and `TouchUpdate` is emitted when it is in an update state and geometry or
state changed. -/
def stepContact (acc : List (Int × FingerTrack) × List TouchEvent)
    (c : Contact) : List (Int × FingerTrack) × List TouchEvent :=
  match lookupFinger c.fingerID acc.1 with
  | none =>
    if isBeginState c.state then
      ((c.fingerID, ⟨c.state, c.geom⟩) :: acc.1,
       acc.2 ++ [TouchEvent.touchBegin c.fingerID])
    else acc
  | some ft =>
    if c.state = .outOfRange then
      (removeFinger c.fingerID acc.1, acc.2 ++ [TouchEvent.touchEnd c.fingerID])
    else
      (updateFinger c.fingerID ⟨c.state, c.geom⟩ acc.1,
       if isUpdateState c.state ∧ (c.state ≠ ft.lastState ∨ c.geom ≠ ft.lastGeom)
       then acc.2 ++ [TouchEvent.touchUpdate c.fingerID]
       else acc.2)

/-- Decidable membership of a fingerID in the list of fingerIDs reported
by a frame. -/
def memB (x : Int) : List Int → Bool
  | [] => false
  | y :: rest => if y = x then true else memB x rest

/-- Modelled from the spec: one frame through the Touch State Tracker
(§4.2). Every Contact is processed in order; then every still-tracked
fingerID absent from the frame receives an implicit `TouchEnd` and is
dropped. -/
def processFrame (fingers : List (Int × FingerTrack)) (contacts : List Contact) :
    List (Int × FingerTrack) × List TouchEvent :=
  let r := contacts.foldl stepContact (fingers, [])
  let present := contacts.map (·.fingerID)
  (r.1.filter fun p => memB p.1 present,
   r.2 ++ (r.1.filter fun p => !(memB p.1 present)).map fun p =>
     TouchEvent.touchEnd p.1)

/-- The tracker's whole state for one device: the live state machines and
the last accepted frame number. -/
structure Tracker where
  fingers : List (Int × FingerTrack)
  lastFrame : Option Int
  deriving DecidableEq, Repr

/-- The tracker before any frame. -/
def initTracker : Tracker := ⟨[], none⟩

/-- Modelled from the spec: `onFrame` of the Touch State Tracker (§4.2).
A frame whose number does not exceed the last accepted one is a protocol
anomaly: it is ignored (no events, no state change). -/
def onFrame (tr : Tracker) (frameNum : Int) (contacts : List Contact) :
    Tracker × List TouchEvent :=
  match tr.lastFrame with
  | some n =>
    if frameNum ≤ n then (tr, [])
    else
      let r := processFrame tr.fingers contacts
      (⟨r.1, some frameNum⟩, r.2)
  | none =>
    let r := processFrame tr.fingers contacts
    (⟨r.1, some frameNum⟩, r.2)

/-- One frame of the tracker run: advance the tracker and append the
emitted events. -/
def runStep (acc : Tracker × List TouchEvent) (fr : Int × List Contact) :
    Tracker × List TouchEvent :=
  ((onFrame acc.1 fr.1 fr.2).1, acc.2 ++ (onFrame acc.1 fr.1 fr.2).2)

/-- Run the tracker from its initial state over a sequence of frames,
collecting all emitted events. -/
def runTracker (frames : List (Int × List Contact)) : Tracker × List TouchEvent :=
  frames.foldl runStep (initTracker, [])

/-- Whether a fingerID currently has a live state machine. -/
def trackedB (fid : Int) (l : List (Int × FingerTrack)) : Bool :=
  (lookupFinger fid l).isSome

/-- The tracker map never holds two machines for one fingerID. -/
def nodupKeys (l : List (Int × FingerTrack)) : Prop :=
  (l.map Prod.fst).Nodup

/-- Project an event stream onto one fingerID's `TouchBegin`/`TouchEnd`
events: `true` for a begin, `false` for an end; updates and other fingers
are discarded. -/
def beginEndSeq (fid : Int) (evs : List TouchEvent) : List Bool :=
  evs.filterMap fun e =>
    match e with
    | .touchBegin f => if f = fid then some true else none
    | .touchEnd f => if f = fid then some false else none
    | .touchUpdate _ => none

/-- Check a begin/end projection against the lifetime discipline: `t` is
whether a lifetime is currently open. A begin is legal only when no
lifetime is open, an end only when one is; the result is the final
open-lifetime flag, or `none` on a violation. `follows false l = some t`
says `l` is an alternation `begin, end, begin, end, …` starting with a
begin — exactly one begin per lifetime, at most one end, and every end
after its begin. -/
def follows : Bool → List Bool → Option Bool
  | t, [] => some t
  | t, b :: rest => if b = !t then follows b rest else none

/-- Strict monotonicity of a list of frame numbers. -/
def strictlyIncr : List Int → Bool
  | [] => true
  | [_] => true
  | a :: b :: rest => a < b && strictlyIncr (b :: rest)

/-! ## Helper lemmas -/

theorem mem_of_mem_drain_iterator {x : Nat} :
    ∀ {objs : List Nat}, x ∈ drain_iterator objs → x ∈ objs := by
  intro objs
  induction objs with
  | nil => intro h; exact absurd h (by simp [drain_iterator])
  | cons o rest ih =>
    intro h
    rw [drain_iterator] at h
    by_cases ho : o = 0
    · simp [ho] at h
    · simp [ho] at h
      rcases h with h | h
      · exact h ▸ List.mem_cons_self o rest
      · exact List.mem_cons_of_mem o (ih h)

theorem zero_not_mem_drain_iterator (objs : List Nat) : 0 ∉ drain_iterator objs := by
  induction objs with
  | nil => simp [drain_iterator]
  | cons o rest ih =>
    rw [drain_iterator]
    by_cases ho : o = 0
    · simp [ho]
    · simp [ho]
      exact ⟨fun h => ho h.symm, ih⟩

theorem drain_iterator_of_zero_not_mem {objs : List Nat} (h : 0 ∉ objs) :
    drain_iterator objs = objs := by
  induction objs with
  | nil => rfl
  | cons o rest ih =>
    rw [drain_iterator]
    have ho : o ≠ 0 := fun he => h (he ▸ List.mem_cons_self o rest)
    simp [ho]
    exact ih fun hm => h (List.mem_cons_of_mem o hm)

theorem ioRelease_injective : Function.Injective Act.ioRelease := by
  intro a b h
  injection h

theorem count_ioRelease_drainTrace (x : Nat) (objs : List Nat) :
    (drainTrace objs).count (Act.ioRelease x) = (drain_iterator objs).count x := by
  unfold drainTrace
  exact List.count_map_of_injective _ _ ioRelease_injective _

theorem count_drainTrace_of_not_mem {x : Nat} {objs : List Nat} (h : x ∉ objs) :
    (drainTrace objs).count (Act.ioRelease x) = 0 := by
  rw [count_ioRelease_drainTrace]
  exact List.count_eq_zero.2 fun hm => h (mem_of_mem_drain_iterator hm)

theorem ioRelease_zero_not_mem_drainTrace (objs : List Nat) :
    Act.ioRelease 0 ∉ drainTrace objs := by
  unfold drainTrace
  intro hm
  rcases List.mem_map.1 hm with ⟨y, hy, he⟩
  have : y = 0 := by injection he
  exact zero_not_mem_drain_iterator objs (this ▸ hy)

theorem portDestroy_not_mem_drainTrace (p : Nat) (objs : List Nat) :
    Act.portDestroy p ∉ drainTrace objs := by
  unfold drainTrace
  intro hm
  rcases List.mem_map.1 hm with ⟨y, _, he⟩
  exact Act.noConfusion he

theorem setup_eq_dictFail {e : SetupEnv} (h : e.mAdd = 0 ∨ e.mRemove = 0) :
    setup_iokit_notifications e =
      { ret := 5, addIter := 0, removeIter := 0
        trace := (if e.mAdd ≠ 0 then [Act.cfRelease e.mAdd] else []) ++
                 (if e.mRemove ≠ 0 then [Act.cfRelease e.mRemove] else []) } := by
  unfold setup_iokit_notifications
  rw [if_pos h]

theorem setup_eq_addFail {e : SetupEnv} (h1 : ¬(e.mAdd = 0 ∨ e.mRemove = 0))
    (h2 : e.krAdd ≠ 0) :
    setup_iokit_notifications e =
      { ret := e.krAdd, addIter := 0, removeIter := 0
        trace := [Act.consume e.mAdd] } := by
  unfold setup_iokit_notifications
  rw [if_neg h1, if_pos h2]

theorem setup_eq_removeFail {e : SetupEnv} (h1 : ¬(e.mAdd = 0 ∨ e.mRemove = 0))
    (h2 : e.krAdd = 0) (h3 : e.krRemove ≠ 0) :
    setup_iokit_notifications e =
      { ret := e.krRemove, addIter := 0, removeIter := 0
        trace := Act.consume e.mAdd :: drainTrace e.addObjs ++
                 [Act.consume e.mRemove, Act.ioRelease e.addIterH] } := by
  unfold setup_iokit_notifications
  rw [if_neg h1, if_neg (not_not_intro h2), if_pos h3]

theorem setup_eq_success {e : SetupEnv} (h1 : ¬(e.mAdd = 0 ∨ e.mRemove = 0))
    (h2 : e.krAdd = 0) (h3 : e.krRemove = 0) :
    setup_iokit_notifications e =
      { ret := 0, addIter := e.addIterH, removeIter := e.removeIterH
        trace := Act.consume e.mAdd :: drainTrace e.addObjs ++
                 Act.consume e.mRemove :: drainTrace e.removeObjs } := by
  unfold setup_iokit_notifications
  rw [if_neg h1, if_neg (not_not_intro h2), if_neg (not_not_intro h3)]

theorem count_portDestroy_drainTrace (p : Nat) (objs : List Nat) :
    (drainTrace objs).count (Act.portDestroy p) = 0 :=
  List.count_eq_zero.2 (portDestroy_not_mem_drainTrace p objs)

theorem count_if_nil (c : Prop) [Decidable c] (l : List Act) (y : Act)
    (h : y ∉ l) : ((if c then l else []) : List Act).count y = 0 := by
  split
  · exact List.count_eq_zero.2 h
  · rfl

theorem not_mem_if_nil (c : Prop) [Decidable c] (l : List Act) (y : Act)
    (h : y ∉ l) : y ∉ ((if c then l else []) : List Act) := by
  split
  · exact h
  · simp

theorem count_if_nil' (c : Prop) [Decidable c] (l : List Act) (y : Act)
    (h : y ∉ l) : ((if c then [] else l) : List Act).count y = 0 := by
  split
  · rfl
  · exact List.count_eq_zero.2 h

theorem not_mem_if_nil' (c : Prop) [Decidable c] (l : List Act) (y : Act)
    (h : y ∉ l) : y ∉ ((if c then [] else l) : List Act) := by
  split
  · simp
  · exact h

/-! ## Claims -/

/-- C10: `drain_iterator`, applied to an iterator yielding a finite
sequence of non-NULL objects, terminates (it is a total function),
releases exactly the yielded objects in order (so each exactly once and
nothing else — the sentinel and the iterator are never released). -/
theorem drain_iterator_releases_exactly (iter : List Nat) (h : 0 ∉ iter) :
    drain_iterator iter = iter ∧ 0 ∉ drain_iterator iter :=
  ⟨drain_iterator_of_zero_not_mem h, zero_not_mem_drain_iterator iter⟩

theorem drain_iterator_releases_exactly_w :
    (0 ∉ ([3, 7] : List Nat)) ∧
    (drain_iterator [3, 7] = [3, 7] ∧ 0 ∉ drain_iterator [3, 7]) :=
  ⟨by decide, drain_iterator_releases_exactly [3, 7] (by decide)⟩

/-- C9: `bridge_touch_callback` hands all five arguments to the Go
handler and returns 0 to the framework, whatever the handler and the
inputs are: its integer result never depends on either. -/
theorem bridge_touch_callback_returns_zero {Dev Fing α : Type}
    (goTouchCallback : Dev → Option (List Fing) → Int → Int → Int → α)
    (device : Dev) (data : Option (List Fing)) (dataNum timestamp frame : Int) :
    (bridge_touch_callback goTouchCallback device data dataNum timestamp frame).2
      = 0 ∧
    (bridge_touch_callback goTouchCallback device data dataNum timestamp frame).1
      = goTouchCallback device data dataNum timestamp frame :=
  ⟨rfl, rfl⟩

/-- C8: `bridge_event_tap_callback` returns to the OS exactly the value
produced by the registered Go handler, for every input; in particular a
`none` (NULL `CGEventRef`, i.e. Suppress) decision is returned as `none`,
so the event is not passed on. -/
theorem bridge_event_tap_returns_handler_result {Proxy Ev Info : Type}
    (goEventTapCallback : Proxy → Nat → Option Ev → Info → Option Ev)
    (proxy : Proxy) (type : Nat) (event : Option Ev) (userInfo : Info) :
    bridge_event_tap_callback goEventTapCallback proxy type event userInfo =
      goEventTapCallback proxy type event userInfo :=
  rfl

/-- C7: the Touch Frame Decoder signals `DecodeError` exactly when
`dataNum` is negative or the buffer pointer is absent; a frame with
`dataNum = 0` and a present buffer yields zero Contacts, and feeding zero
Contacts to the tracker yields zero events. Decoder modelled from the
spec (§4.1); the Go implementation is not among the C sources. -/
theorem decodeFrame_error_iff (buf : Option (List RawFinger)) (n : Int)
    (records : List RawFinger) (fn : Int) :
    (decodeFrame buf n = Except.error DecodeError.decodeError ↔
      (n < 0 ∨ buf = none)) ∧
    decodeFrame (some records) 0 = Except.ok [] ∧
    (onFrame initTracker fn []).2 = [] := by
  refine ⟨?_, ?_, rfl⟩
  · cases buf with
    | none => simp [decodeFrame]
    | some records' =>
      by_cases hn : n < 0
      · simp [decodeFrame, hn]
      · simp [decodeFrame, hn]
  · simp [decodeFrame]

/-- C5 (code bug): on the failure path where both matching dictionaries
were created but the add-side registration fails,
`setup_iokit_notifications` returns the error with the remove-side
matching dictionary neither consumed by a registration call nor released:
its trace at the concrete failing input `mAdd = 1, mRemove = 2,
krAdd = 5` is exactly `[consume 1]`, with no `CFRelease 2` and no
consumption of dictionary 2, contradicting "partial setup is always
unwound". -/
theorem setup_add_failure_leaks_remove_dict :
    (setup_iokit_notifications ⟨1, 2, 5, 0, [], 0, 0, []⟩).ret = 5 ∧
    (setup_iokit_notifications ⟨1, 2, 5, 0, [], 0, 0, []⟩).trace =
      [Act.consume 1] ∧
    Act.cfRelease 2 ∉ (setup_iokit_notifications ⟨1, 2, 5, 0, [], 0, 0, []⟩).trace ∧
    Act.consume 2 ∉ (setup_iokit_notifications ⟨1, 2, 5, 0, [], 0, 0, []⟩).trace := by
  decide

/-- C1: if the add-side registration succeeds and the remove-side
registration fails, `setup_iokit_notifications` releases the add-side
iterator exactly once, zeroes its out-parameter, and returns the
remove-side error code. -/
theorem setup_remove_failure_releases_add (e : SetupEnv)
    (hA : e.mAdd ≠ 0) (hB : e.mRemove ≠ 0) (hkA : e.krAdd = 0)
    (hkR : e.krRemove ≠ 0) (hd : e.addIterH ∉ e.addObjs) :
    (setup_iokit_notifications e).ret = e.krRemove ∧
    (setup_iokit_notifications e).addIter = 0 ∧
    (setup_iokit_notifications e).trace.count (Act.ioRelease e.addIterH) = 1 := by
  rw [setup_eq_removeFail (by simp [hA, hB]) hkA hkR]
  refine ⟨rfl, rfl, ?_⟩
  simp [List.count_cons, List.count_append, count_drainTrace_of_not_mem hd]

theorem setup_remove_failure_releases_add_w :
    ((1 : Nat) ≠ 0 ∧ (2 : Nat) ≠ 0 ∧ (0 : Nat) = 0 ∧ (7 : Nat) ≠ 0 ∧
      (10 : Nat) ∉ ([3] : List Nat)) ∧
    ((setup_iokit_notifications ⟨1, 2, 0, 10, [3], 7, 0, []⟩).ret = 7 ∧
     (setup_iokit_notifications ⟨1, 2, 0, 10, [3], 7, 0, []⟩).addIter = 0 ∧
     (setup_iokit_notifications ⟨1, 2, 0, 10, [3], 7, 0, []⟩).trace.count
       (Act.ioRelease 10) = 1) :=
  ⟨by decide,
   setup_remove_failure_releases_add ⟨1, 2, 0, 10, [3], 7, 0, []⟩
     (by decide) (by decide) (by decide) (by decide) (by decide)⟩

/-- C4: whenever `setup_iokit_notifications` returns success, its trace
is exactly: consume the add dictionary, release every object pending on
the add iterator (its full drain, immediately after the add
registration), consume the remove dictionary, release every object
pending on the remove iterator (its full drain, immediately after the
remove registration). -/
theorem setup_success_drains_both (e : SetupEnv)
    (hs : (setup_iokit_notifications e).ret = 0)
    (ha : 0 ∉ e.addObjs) (hr : 0 ∉ e.removeObjs) :
    (setup_iokit_notifications e).trace =
      Act.consume e.mAdd :: e.addObjs.map Act.ioRelease ++
        Act.consume e.mRemove :: e.removeObjs.map Act.ioRelease := by
  by_cases h1 : e.mAdd = 0 ∨ e.mRemove = 0
  · rw [setup_eq_dictFail h1] at hs
    exact absurd hs (by simp)
  · by_cases h2 : e.krAdd = 0
    · by_cases h3 : e.krRemove = 0
      · rw [setup_eq_success h1 h2 h3]
        unfold drainTrace
        rw [drain_iterator_of_zero_not_mem ha, drain_iterator_of_zero_not_mem hr]
      · rw [setup_eq_removeFail h1 h2 h3] at hs
        exact absurd hs h3
    · rw [setup_eq_addFail h1 h2] at hs
      exact absurd hs h2

/-- C2: across the whole register-then-teardown round trip, each iterator
that became live during setup is released exactly once, the port is
destroyed exactly once, and no release or destroy ever targets a zero
handle — for every outcome of `setup_iokit_notifications` (matching
failure, add-side failure, remove-side failure, full success). -/
theorem setup_cleanup_roundtrip (port : Nat) (e : SetupEnv)
    (hp : port ≠ 0) (hA : e.addIterH ≠ 0) (hR : e.removeIterH ≠ 0)
    (hAR : e.addIterH ≠ e.removeIterH)
    (hA1 : e.addIterH ∉ e.addObjs) (hA2 : e.addIterH ∉ e.removeObjs)
    (hR1 : e.removeIterH ∉ e.addObjs) (hR2 : e.removeIterH ∉ e.removeObjs) :
    (roundTrip port e).count (Act.ioRelease e.addIterH) =
      (if ¬(e.mAdd = 0 ∨ e.mRemove = 0) ∧ e.krAdd = 0 then 1 else 0) ∧
    (roundTrip port e).count (Act.ioRelease e.removeIterH) =
      (if ¬(e.mAdd = 0 ∨ e.mRemove = 0) ∧ e.krAdd = 0 ∧ e.krRemove = 0
       then 1 else 0) ∧
    (roundTrip port e).count (Act.portDestroy port) = 1 ∧
    Act.ioRelease 0 ∉ roundTrip port e ∧
    Act.portDestroy 0 ∉ roundTrip port e := by
  have hA0 : (0 : Nat) ≠ e.addIterH := Ne.symm hA
  have hp0 : (0 : Nat) ≠ port := Ne.symm hp
  by_cases h1 : e.mAdd = 0 ∨ e.mRemove = 0
  · have hc1 : ¬(¬(e.mAdd = 0 ∨ e.mRemove = 0) ∧ e.krAdd = 0) :=
      fun hc => hc.1 h1
    have hc2 : ¬(¬(e.mAdd = 0 ∨ e.mRemove = 0) ∧ e.krAdd = 0 ∧ e.krRemove = 0) :=
      fun hc => hc.1 h1
    unfold roundTrip
    rw [setup_eq_dictFail h1, if_neg hc1, if_neg hc2]
    simp only [cleanup_iokit_notifications]
    simp [List.count_append, List.count_cons, count_if_nil, not_mem_if_nil,
      count_if_nil', not_mem_if_nil', hp, hA0, hp0]
  · by_cases h2 : e.krAdd = 0
    · by_cases h3 : e.krRemove = 0
      · have hc1 : ¬(e.mAdd = 0 ∨ e.mRemove = 0) ∧ e.krAdd = 0 := ⟨h1, h2⟩
        have hc2 : ¬(e.mAdd = 0 ∨ e.mRemove = 0) ∧ e.krAdd = 0 ∧ e.krRemove = 0 :=
          ⟨h1, h2, h3⟩
        unfold roundTrip
        rw [setup_eq_success h1 h2 h3, if_pos hc1, if_pos hc2]
        simp only [cleanup_iokit_notifications]
        simp [List.count_append, List.count_cons, hp, hA, hR, hAR, hA0, hp0,
          Ne.symm hR, Ne.symm hAR,
          count_drainTrace_of_not_mem hA1, count_drainTrace_of_not_mem hA2,
          count_drainTrace_of_not_mem hR1, count_drainTrace_of_not_mem hR2,
          ioRelease_zero_not_mem_drainTrace, portDestroy_not_mem_drainTrace,
          count_portDestroy_drainTrace]
      · have hc1 : ¬(e.mAdd = 0 ∨ e.mRemove = 0) ∧ e.krAdd = 0 := ⟨h1, h2⟩
        have hc2 : ¬(¬(e.mAdd = 0 ∨ e.mRemove = 0) ∧ e.krAdd = 0 ∧
            e.krRemove = 0) := fun hc => h3 hc.2.2
        unfold roundTrip
        rw [setup_eq_removeFail h1 h2 h3, if_pos hc1, if_neg hc2]
        simp only [cleanup_iokit_notifications]
        simp [List.count_append, List.count_cons, hp, hA, hAR, hA0, hp0,
          Ne.symm hAR,
          count_drainTrace_of_not_mem hA1, count_drainTrace_of_not_mem hR1,
          ioRelease_zero_not_mem_drainTrace, portDestroy_not_mem_drainTrace,
          count_portDestroy_drainTrace]
    · have hc1 : ¬(¬(e.mAdd = 0 ∨ e.mRemove = 0) ∧ e.krAdd = 0) :=
        fun hc => h2 hc.2
      have hc2 : ¬(¬(e.mAdd = 0 ∨ e.mRemove = 0) ∧ e.krAdd = 0 ∧
          e.krRemove = 0) := fun hc => h2 hc.2.1
      unfold roundTrip
      rw [setup_eq_addFail h1 h2, if_neg hc1, if_neg hc2]
      simp only [cleanup_iokit_notifications]
      simp [List.count_append, List.count_cons, hp, hA0, hp0]

theorem setup_cleanup_roundtrip_w :
    ((9 : Nat) ≠ 0 ∧ (10 : Nat) ≠ 0 ∧ (11 : Nat) ≠ 0 ∧ (10 : Nat) ≠ 11 ∧
      (10 : Nat) ∉ ([3] : List Nat) ∧ (10 : Nat) ∉ ([4] : List Nat) ∧
      (11 : Nat) ∉ ([3] : List Nat) ∧ (11 : Nat) ∉ ([4] : List Nat)) ∧
    ((roundTrip 9 ⟨1, 2, 0, 10, [3], 0, 11, [4]⟩).count (Act.ioRelease 10) =
      (if ¬((1 : Nat) = 0 ∨ (2 : Nat) = 0) ∧ (0 : Nat) = 0 then 1 else 0) ∧
     (roundTrip 9 ⟨1, 2, 0, 10, [3], 0, 11, [4]⟩).count (Act.ioRelease 11) =
      (if ¬((1 : Nat) = 0 ∨ (2 : Nat) = 0) ∧ (0 : Nat) = 0 ∧ (0 : Nat) = 0
       then 1 else 0) ∧
     (roundTrip 9 ⟨1, 2, 0, 10, [3], 0, 11, [4]⟩).count (Act.portDestroy 9) = 1 ∧
     Act.ioRelease 0 ∉ roundTrip 9 ⟨1, 2, 0, 10, [3], 0, 11, [4]⟩ ∧
     Act.portDestroy 0 ∉ roundTrip 9 ⟨1, 2, 0, 10, [3], 0, 11, [4]⟩) :=
  ⟨by decide,
   setup_cleanup_roundtrip 9 ⟨1, 2, 0, 10, [3], 0, 11, [4]⟩
     (by decide) (by decide) (by decide) (by decide) (by decide) (by decide)
     (by decide) (by decide)⟩

/-- C3 counterexample: the forwarded devices-changed signal cannot carry
the Arrived/Departed side. Both registrations in
`setup_iokit_notifications` install the same `bridge_iokit_callback` with
a NULL refcon, and `goIOKitDeviceChanged()` takes no argument: an
add-side delivery and a remove-side delivery (distinct iterators, same
NULL refcon) forward the identical, payload-free signal. -/
theorem bridge_iokit_signal_side_blind :
    (bridge_iokit_callback 0 [5]).2 = (bridge_iokit_callback 0 [6]).2 ∧
    (bridge_iokit_callback 0 [5]).2 = [GoSignal.devicesChanged] := by
  decide

/-- C3 (amended): for every delivered notification,
`bridge_iokit_callback` fully drains the iterator — releasing every
pending entry — before returning, and forwards exactly one logical
devices-changed signal per invocation, regardless of how many entries
were drained; the signal carries no Arrived/Departed side. -/
theorem bridge_iokit_drains_and_signals_once (refcon : Nat) (iter : List Nat)
    (h : 0 ∉ iter) :
    (bridge_iokit_callback refcon iter).1 = iter.map Act.ioRelease ∧
    (bridge_iokit_callback refcon iter).2 = [GoSignal.devicesChanged] := by
  unfold bridge_iokit_callback drainTrace
  rw [drain_iterator_of_zero_not_mem h]
  exact ⟨rfl, rfl⟩

theorem bridge_iokit_drains_and_signals_once_w :
    ((0 : Nat) ∉ ([4, 9] : List Nat)) ∧
    ((bridge_iokit_callback 0 [4, 9]).1 = [4, 9].map Act.ioRelease ∧
     (bridge_iokit_callback 0 [4, 9]).2 = [GoSignal.devicesChanged]) :=
  ⟨by decide, bridge_iokit_drains_and_signals_once 0 [4, 9] (by decide)⟩

theorem setup_success_drains_both_w :
    ((setup_iokit_notifications ⟨1, 2, 0, 10, [3], 0, 11, [4]⟩).ret = 0 ∧
      (0 : Nat) ∉ ([3] : List Nat) ∧ (0 : Nat) ∉ ([4] : List Nat)) ∧
    (setup_iokit_notifications ⟨1, 2, 0, 10, [3], 0, 11, [4]⟩).trace =
      Act.consume 1 :: [3].map Act.ioRelease ++
        Act.consume 2 :: [4].map Act.ioRelease :=
  ⟨by decide,
   setup_success_drains_both ⟨1, 2, 0, 10, [3], 0, 11, [4]⟩
     (by decide) (by decide) (by decide)⟩

/-! ## Tracker helper lemmas -/

theorem lookupFinger_cons_self (fid : Int) (v : FingerTrack)
    (l : List (Int × FingerTrack)) : lookupFinger fid ((fid, v) :: l) = some v := by
  simp [lookupFinger]

theorem lookupFinger_cons_ne (fid k : Int) (v : FingerTrack)
    (l : List (Int × FingerTrack)) (h : k ≠ fid) :
    lookupFinger fid ((k, v) :: l) = lookupFinger fid l := by
  simp [lookupFinger, h]

theorem lookupFinger_eq_none_iff (fid : Int) (l : List (Int × FingerTrack)) :
    lookupFinger fid l = none ↔ fid ∉ l.map Prod.fst := by
  induction l with
  | nil => simp [lookupFinger]
  | cons q rest ih =>
    obtain ⟨k, v⟩ := q
    by_cases hk : k = fid
    · subst hk
      simp [lookupFinger]
    · rw [lookupFinger_cons_ne fid k v rest hk]
      simp only [List.map_cons, List.mem_cons]
      rw [ih]
      constructor
      · intro h hc
        rcases hc with hc | hc
        · exact hk hc.symm
        · exact h hc
      · intro h hc
        exact h (Or.inr hc)

theorem lookupFinger_removeFinger_self (fid : Int) (l : List (Int × FingerTrack)) :
    lookupFinger fid (removeFinger fid l) = none := by
  induction l with
  | nil => rfl
  | cons q rest ih =>
    obtain ⟨k, v⟩ := q
    by_cases hk : k = fid
    · simp [removeFinger, hk, ih]
    · simp only [removeFinger, if_neg hk]
      rw [lookupFinger_cons_ne fid k v _ hk]
      exact ih

theorem lookupFinger_removeFinger_ne (fid fid' : Int)
    (l : List (Int × FingerTrack)) (h : fid ≠ fid') :
    lookupFinger fid (removeFinger fid' l) = lookupFinger fid l := by
  induction l with
  | nil => rfl
  | cons q rest ih =>
    obtain ⟨k, v⟩ := q
    by_cases hk : k = fid'
    · subst hk
      rw [removeFinger, if_pos rfl, ih, lookupFinger_cons_ne fid k v rest]
      exact fun he => h he.symm
    · rw [removeFinger, if_neg hk]
      by_cases hkf : k = fid
      · subst hkf
        rw [lookupFinger_cons_self, lookupFinger_cons_self]
      · rw [lookupFinger_cons_ne fid k v _ hkf,
          lookupFinger_cons_ne fid k v rest hkf]
        exact ih

theorem lookupFinger_updateFinger_self (fid : Int) (ft : FingerTrack)
    (l : List (Int × FingerTrack)) :
    lookupFinger fid (updateFinger fid ft l) =
      (lookupFinger fid l).map fun _ => ft := by
  induction l with
  | nil => rfl
  | cons q rest ih =>
    obtain ⟨k, v⟩ := q
    by_cases hk : k = fid
    · subst hk
      rw [updateFinger, if_pos rfl, lookupFinger_cons_self,
        lookupFinger_cons_self]
      rfl
    · rw [updateFinger, if_neg hk, lookupFinger_cons_ne fid k v _ hk,
        lookupFinger_cons_ne fid k v rest hk]
      exact ih

theorem lookupFinger_updateFinger_ne (fid fid' : Int) (ft : FingerTrack)
    (l : List (Int × FingerTrack)) (h : fid ≠ fid') :
    lookupFinger fid (updateFinger fid' ft l) = lookupFinger fid l := by
  induction l with
  | nil => rfl
  | cons q rest ih =>
    obtain ⟨k, v⟩ := q
    by_cases hk : k = fid'
    · subst hk
      rw [updateFinger, if_pos rfl,
        lookupFinger_cons_ne fid k ft _ (fun he => h he.symm),
        lookupFinger_cons_ne fid k v rest (fun he => h he.symm)]
      exact ih
    · rw [updateFinger, if_neg hk]
      by_cases hkf : k = fid
      · subst hkf
        rw [lookupFinger_cons_self, lookupFinger_cons_self]
      · rw [lookupFinger_cons_ne fid k v _ hkf,
          lookupFinger_cons_ne fid k v rest hkf]
        exact ih

theorem removeFinger_sublist (fid : Int) (l : List (Int × FingerTrack)) :
    List.Sublist (removeFinger fid l) l := by
  induction l with
  | nil => exact List.Sublist.refl []
  | cons q rest ih =>
    obtain ⟨k, v⟩ := q
    by_cases hk : k = fid
    · rw [removeFinger, if_pos hk]
      exact ih.cons (k, v)
    · rw [removeFinger, if_neg hk]
      exact ih.cons₂ (k, v)

theorem keys_updateFinger (fid : Int) (ft : FingerTrack)
    (l : List (Int × FingerTrack)) :
    (updateFinger fid ft l).map Prod.fst = l.map Prod.fst := by
  induction l with
  | nil => rfl
  | cons q rest ih =>
    obtain ⟨k, v⟩ := q
    by_cases hk : k = fid
    · rw [updateFinger, if_pos hk]
      simp [ih]
    · rw [updateFinger, if_neg hk]
      simp [ih]

theorem nodupKeys_removeFinger (fid : Int) (l : List (Int × FingerTrack))
    (h : nodupKeys l) : nodupKeys (removeFinger fid l) :=
  h.sublist ((removeFinger_sublist fid l).map Prod.fst)

theorem nodupKeys_updateFinger (fid : Int) (ft : FingerTrack)
    (l : List (Int × FingerTrack)) (h : nodupKeys l) :
    nodupKeys (updateFinger fid ft l) := by
  unfold nodupKeys
  rw [keys_updateFinger]
  exact h

theorem nodupKeys_filter (f : Int × FingerTrack → Bool)
    (l : List (Int × FingerTrack)) (h : nodupKeys l) :
    nodupKeys (l.filter f) :=
  h.sublist ((List.filter_sublist l).map Prod.fst)

theorem follows_append (t : Bool) (l1 l2 : List Bool) :
    follows t (l1 ++ l2) = (follows t l1).bind fun u => follows u l2 := by
  induction l1 generalizing t with
  | nil => rfl
  | cons b rest ih =>
    rw [List.cons_append, follows, follows]
    by_cases hb : b = !t
    · rw [if_pos hb, if_pos hb, ih]
    · rw [if_neg hb, if_neg hb]
      rfl

theorem beginEndSeq_append (fid : Int) (a b : List TouchEvent) :
    beginEndSeq fid (a ++ b) = beginEndSeq fid a ++ beginEndSeq fid b :=
  List.filterMap_append a b _

theorem beginEndSeq_begin (fid f : Int) :
    beginEndSeq fid [TouchEvent.touchBegin f] =
      if f = fid then [true] else [] := by
  by_cases h : f = fid <;> simp [beginEndSeq, h]

theorem beginEndSeq_end (fid f : Int) :
    beginEndSeq fid [TouchEvent.touchEnd f] =
      if f = fid then [false] else [] := by
  by_cases h : f = fid <;> simp [beginEndSeq, h]

theorem beginEndSeq_update (fid f : Int) :
    beginEndSeq fid [TouchEvent.touchUpdate f] = [] := by
  simp [beginEndSeq]

theorem beginEndSeq_end_map (fid : Int) (entries : List (Int × FingerTrack)) :
    beginEndSeq fid (entries.map fun p => TouchEvent.touchEnd p.1) =
      List.replicate (entries.countP fun p => p.1 = fid) false := by
  induction entries with
  | nil => rfl
  | cons q rest ih =>
    obtain ⟨k, v⟩ := q
    rw [List.map_cons, List.countP_cons]
    by_cases hk : k = fid
    · have : beginEndSeq fid (TouchEvent.touchEnd k ::
          rest.map fun p => TouchEvent.touchEnd p.1) =
          false :: beginEndSeq fid (rest.map fun p => TouchEvent.touchEnd p.1) := by
        simp [beginEndSeq, hk]
      rw [this, ih]
      simp [hk, List.replicate_succ]
    · have : beginEndSeq fid (TouchEvent.touchEnd k ::
          rest.map fun p => TouchEvent.touchEnd p.1) =
          beginEndSeq fid (rest.map fun p => TouchEvent.touchEnd p.1) := by
        simp [beginEndSeq, hk]
      rw [this, ih]
      simp [hk]

theorem countP_key_of_nodup (fid : Int) (l : List (Int × FingerTrack))
    (h : nodupKeys l) :
    (l.countP fun p => p.1 = fid) = if trackedB fid l then 1 else 0 := by
  induction l with
  | nil => rfl
  | cons q rest ih =>
    obtain ⟨k, v⟩ := q
    unfold nodupKeys at h
    rw [List.map_cons, List.nodup_cons] at h
    have ihr := ih h.2
    rw [List.countP_cons]
    by_cases hk : k = fid
    · subst hk
      have hz : rest.countP (fun p => p.1 = k) = 0 := by
        apply List.countP_eq_zero.2
        intro a ha
        simp only [decide_eq_true_eq]
        intro hak
        apply h.1
        rw [← hak]
        exact List.mem_map.2 ⟨a, ha, rfl⟩
      rw [hz]
      simp [trackedB, lookupFinger]
    · rw [ihr]
      have hlk : lookupFinger fid ((k, v) :: rest) = lookupFinger fid rest :=
        lookupFinger_cons_ne fid k v rest hk
      simp [trackedB, hlk, hk]

theorem stepContact_follows (fid : Int) (c : Contact)
    (fingers : List (Int × FingerTrack)) (evs : List TouchEvent) (t0 : Bool)
    (hnk : nodupKeys fingers)
    (hf : follows t0 (beginEndSeq fid evs) = some (trackedB fid fingers)) :
    follows t0 (beginEndSeq fid (stepContact (fingers, evs) c).2) =
      some (trackedB fid (stepContact (fingers, evs) c).1) ∧
    nodupKeys (stepContact (fingers, evs) c).1 := by
  simp only [stepContact]
  cases hl : lookupFinger c.fingerID fingers with
  | none =>
    cases hb : isBeginState c.state with
    | false =>
      simp only [Bool.false_eq_true, if_false]
      exact ⟨hf, hnk⟩
    | true =>
      simp only [if_true]
      have hmem : c.fingerID ∉ fingers.map Prod.fst :=
        (lookupFinger_eq_none_iff c.fingerID fingers).1 hl
      have hnk' : nodupKeys ((c.fingerID, ⟨c.state, c.geom⟩) :: fingers) := by
        unfold nodupKeys
        rw [List.map_cons]
        exact List.nodup_cons.2 ⟨hmem, hnk⟩
      refine ⟨?_, hnk'⟩
      by_cases hc : c.fingerID = fid
      · subst hc
        have htr : trackedB c.fingerID fingers = false := by
          simp [trackedB, hl]
        rw [htr] at hf
        rw [beginEndSeq_append, follows_append, hf, beginEndSeq_begin,
          if_pos rfl]
        simp [follows, trackedB, lookupFinger_cons_self]
      · have hproj : beginEndSeq fid [TouchEvent.touchBegin c.fingerID] = [] := by
          rw [beginEndSeq_begin, if_neg hc]
        rw [beginEndSeq_append, hproj, List.append_nil, hf]
        simp [trackedB,
          lookupFinger_cons_ne fid c.fingerID ⟨c.state, c.geom⟩ fingers hc]
  | some ft =>
    by_cases ho : c.state = TouchState.outOfRange
    · simp only [ho, if_true, if_pos]
      have hnk' : nodupKeys (removeFinger c.fingerID fingers) :=
        nodupKeys_removeFinger c.fingerID fingers hnk
      refine ⟨?_, hnk'⟩
      by_cases hc : c.fingerID = fid
      · subst hc
        have htr : trackedB c.fingerID fingers = true := by
          simp [trackedB, hl]
        rw [htr] at hf
        rw [beginEndSeq_append, follows_append, hf, beginEndSeq_end,
          if_pos rfl]
        simp [follows, trackedB, lookupFinger_removeFinger_self]
      · have hproj : beginEndSeq fid [TouchEvent.touchEnd c.fingerID] = [] := by
          rw [beginEndSeq_end, if_neg hc]
        rw [beginEndSeq_append, hproj, List.append_nil, hf]
        simp [trackedB,
          lookupFinger_removeFinger_ne fid c.fingerID fingers
            (fun he => hc he.symm)]
    · simp only [ho, if_false, if_neg]
      have hnk' : nodupKeys (updateFinger c.fingerID ⟨c.state, c.geom⟩ fingers) :=
        nodupKeys_updateFinger c.fingerID _ fingers hnk
      have hproj : beginEndSeq fid
          (if isUpdateState c.state ∧
              (c.state ≠ ft.lastState ∨ c.geom ≠ ft.lastGeom)
           then evs ++ [TouchEvent.touchUpdate c.fingerID]
           else evs) = beginEndSeq fid evs := by
        split
        · rw [beginEndSeq_append, beginEndSeq_update, List.append_nil]
        · rfl
      refine ⟨?_, hnk'⟩
      rw [hproj, hf]
      by_cases hc : c.fingerID = fid
      · subst hc
        have h1 : trackedB c.fingerID fingers = true := by
          simp [trackedB, hl]
        have h2 : trackedB c.fingerID
            (updateFinger c.fingerID ⟨c.state, c.geom⟩ fingers) = true := by
          simp [trackedB, lookupFinger_updateFinger_self, hl]
        rw [h1, h2]
      · rw [trackedB, trackedB,
          lookupFinger_updateFinger_ne fid c.fingerID _ fingers
            (fun he => hc he.symm)]

theorem foldl_stepContact_follows (fid : Int) (contacts : List Contact) :
    ∀ (fingers : List (Int × FingerTrack)) (evs : List TouchEvent) (t0 : Bool),
    nodupKeys fingers →
    follows t0 (beginEndSeq fid evs) = some (trackedB fid fingers) →
    follows t0 (beginEndSeq fid (contacts.foldl stepContact (fingers, evs)).2) =
      some (trackedB fid (contacts.foldl stepContact (fingers, evs)).1) ∧
    nodupKeys (contacts.foldl stepContact (fingers, evs)).1 := by
  induction contacts with
  | nil => exact fun fingers evs t0 hnk hf => ⟨hf, hnk⟩
  | cons c rest ih =>
    intro fingers evs t0 hnk hf
    rw [List.foldl_cons]
    obtain ⟨hf', hnk'⟩ := stepContact_follows fid c fingers evs t0 hnk hf
    have := ih (stepContact (fingers, evs) c).1 (stepContact (fingers, evs) c).2
      t0 hnk' hf'
    simpa using this

theorem lookupFinger_filter_memB (fid : Int) (present : List Int)
    (l : List (Int × FingerTrack)) :
    lookupFinger fid (l.filter fun p => memB p.1 present) =
      if memB fid present then lookupFinger fid l else none := by
  induction l with
  | nil =>
    cases memB fid present <;> rfl
  | cons q rest ih =>
    obtain ⟨k, v⟩ := q
    rw [List.filter_cons]
    by_cases hk : k = fid
    · subst hk
      cases hm : memB k present
      · rw [if_neg (by simp [hm]), ih, hm]
        rfl
      · rw [if_pos (by simp [hm]), lookupFinger_cons_self, if_pos rfl,
          lookupFinger_cons_self]
    · cases hkp : memB k present
      · rw [if_neg (by simp [hkp]), ih, lookupFinger_cons_ne fid k v rest hk]
      · rw [if_pos (by simp [hkp]), lookupFinger_cons_ne fid k v _ hk, ih,
          lookupFinger_cons_ne fid k v rest hk]

theorem absence_follows (fid : Int) (f1 : List (Int × FingerTrack))
    (present : List Int) (hnk : nodupKeys f1) :
    follows (trackedB fid f1)
      (beginEndSeq fid ((f1.filter fun p => !(memB p.1 present)).map fun p =>
        TouchEvent.touchEnd p.1)) =
      some (trackedB fid (f1.filter fun p => memB p.1 present)) := by
  rw [beginEndSeq_end_map, List.countP_filter]
  by_cases hm : memB fid present = true
  · have hz : (f1.countP fun p => decide (p.1 = fid) && !(memB p.1 present)) = 0 := by
      apply List.countP_eq_zero.2
      intro a _
      by_cases ha : a.1 = fid
      · rw [ha]
        simp [hm]
      · simp [ha]
    rw [hz]
    have hkeep := lookupFinger_filter_memB fid present f1
    rw [if_pos hm] at hkeep
    simp [trackedB, hkeep, follows]
  · have habs := lookupFinger_filter_memB fid present f1
    rw [if_neg hm] at habs
    have hcnt : (f1.countP fun p => decide (p.1 = fid) && !(memB p.1 present)) =
        (f1.countP fun p => p.1 = fid) := by
      apply List.countP_congr
      intro a _
      by_cases ha : a.1 = fid
      · rw [ha]
        simp [hm]
      · simp [ha]
    rw [hcnt, countP_key_of_nodup fid f1 hnk]
    cases ht : trackedB fid f1
    · simp [trackedB, habs, follows]
    · simp [trackedB, habs, follows]

theorem processFrame_follows (fid : Int) (fingers : List (Int × FingerTrack))
    (contacts : List Contact) (hnk : nodupKeys fingers) :
    follows (trackedB fid fingers)
        (beginEndSeq fid (processFrame fingers contacts).2) =
      some (trackedB fid (processFrame fingers contacts).1) ∧
    nodupKeys (processFrame fingers contacts).1 := by
  obtain ⟨h1, hnk1⟩ := foldl_stepContact_follows fid contacts fingers []
    (trackedB fid fingers) hnk rfl
  have habs := absence_follows fid (contacts.foldl stepContact (fingers, [])).1
    (contacts.map (·.fingerID)) hnk1
  constructor
  · simp only [processFrame]
    rw [beginEndSeq_append, follows_append, h1]
    simpa using habs
  · simp only [processFrame]
    exact nodupKeys_filter _ _ hnk1

theorem onFrame_follows (fid : Int) (tr : Tracker) (frameNum : Int)
    (contacts : List Contact) (hnk : nodupKeys tr.fingers) :
    follows (trackedB fid tr.fingers)
        (beginEndSeq fid (onFrame tr frameNum contacts).2) =
      some (trackedB fid (onFrame tr frameNum contacts).1.fingers) ∧
    nodupKeys (onFrame tr frameNum contacts).1.fingers := by
  obtain ⟨fs, lf⟩ := tr
  cases lf with
  | none =>
    simp only [onFrame]
    exact processFrame_follows fid fs contacts hnk
  | some n =>
    simp only [onFrame]
    by_cases hle : frameNum ≤ n
    · rw [if_pos hle]
      exact ⟨rfl, hnk⟩
    · rw [if_neg hle]
      exact processFrame_follows fid fs contacts hnk

theorem foldl_runStep_follows (fid : Int) (frames : List (Int × List Contact)) :
    ∀ (tr : Tracker) (evs : List TouchEvent),
    nodupKeys tr.fingers →
    follows false (beginEndSeq fid evs) = some (trackedB fid tr.fingers) →
    follows false (beginEndSeq fid (frames.foldl runStep (tr, evs)).2) =
      some (trackedB fid (frames.foldl runStep (tr, evs)).1.fingers) ∧
    nodupKeys (frames.foldl runStep (tr, evs)).1.fingers := by
  induction frames with
  | nil => exact fun tr evs hnk hf => ⟨hf, hnk⟩
  | cons fr rest ih =>
    intro tr evs hnk hf
    rw [List.foldl_cons]
    obtain ⟨ho, honk⟩ := onFrame_follows fid tr fr.1 fr.2 hnk
    have hf' : follows false
        (beginEndSeq fid (evs ++ (onFrame tr fr.1 fr.2).2)) =
        some (trackedB fid (onFrame tr fr.1 fr.2).1.fingers) := by
      rw [beginEndSeq_append, follows_append, hf]
      simpa using ho
    have hrec := ih ((onFrame tr fr.1 fr.2).1) (evs ++ (onFrame tr fr.1 fr.2).2)
      honk hf'
    simpa [runStep] using hrec

/-- C6: over any sequence of frames with strictly increasing frame
numbers for one device, and any fingerID, the projection of the emitted
event stream onto that fingerID's `TouchBegin`/`TouchEnd` events is
accepted by `follows false`, i.e. it is an alternation beginning with
`TouchBegin`: every lifetime has exactly one `TouchBegin`, at most one
`TouchEnd`, and any `TouchEnd` comes after its lifetime's `TouchBegin`.
Tracker modelled from the spec (§4.2); the Go implementation is not among
the C sources. -/
theorem tracker_begin_end_discipline (frames : List (Int × List Contact))
    (fid : Int) (hinc : strictlyIncr (frames.map Prod.fst) = true) :
    (follows false (beginEndSeq fid (runTracker frames).2)).isSome = true := by
  obtain ⟨h1, _⟩ := foldl_runStep_follows fid frames initTracker []
    (by simp [initTracker, nodupKeys]) rfl
  unfold runTracker
  rw [h1]
  rfl

theorem tracker_begin_end_discipline_w :
    (strictlyIncr (([(1, [⟨1, TouchState.startInRange, (0, 0)⟩]),
        (2, [⟨1, TouchState.makeTouch, (1, 0)⟩]),
        (3, [⟨1, TouchState.touching, (2, 0)⟩]),
        (4, [⟨1, TouchState.touching, (2, 0)⟩]),
        (5, [⟨1, TouchState.outOfRange, (2, 0)⟩])] :
          List (Int × List Contact)).map Prod.fst) = true) ∧
    (follows false (beginEndSeq 1 (runTracker
        [(1, [⟨1, TouchState.startInRange, (0, 0)⟩]),
         (2, [⟨1, TouchState.makeTouch, (1, 0)⟩]),
         (3, [⟨1, TouchState.touching, (2, 0)⟩]),
         (4, [⟨1, TouchState.touching, (2, 0)⟩]),
         (5, [⟨1, TouchState.outOfRange, (2, 0)⟩])]).2)).isSome = true :=
  ⟨by decide,
   tracker_begin_end_discipline
     [(1, [⟨1, TouchState.startInRange, (0, 0)⟩]),
      (2, [⟨1, TouchState.makeTouch, (1, 0)⟩]),
      (3, [⟨1, TouchState.touching, (2, 0)⟩]),
      (4, [⟨1, TouchState.touching, (2, 0)⟩]),
      (5, [⟨1, TouchState.outOfRange, (2, 0)⟩])] 1 (by decide)⟩

end Coastpad
